import Mathlib

/-!
Verification development for the Idea Shelf single-file application (src/app.js).

Shallow embedding conventions:
* Epoch-millisecond timestamps are `ℤ`; `now()` is passed explicitly as a
  parameter `t` (all clock reads inside one handler are modelled as the same
  instant).
* The Dexie `settings` table (primary key `key`) is a partial map
  `String → Option ℤ`; `getSetting`/`setSetting` follow lines 49-55.
* The `snapshots` table (`++id, createdAt`) is a list of rows in insertion
  order together with the auto-increment counter `nextSnapId`.  The serialized
  `backup` payload of a snapshot row is not modelled: no claim inspects it.
* JavaScript numbers are modelled as exact rationals extended with the IEEE
  special values `Infinity`, `-Infinity` and `NaN` (type `JSN`), with the
  JS semantics of `*`, `/`, `+`, `-`, `Math.min`, `Math.max` and `<` on those
  values.  Rounding is idealized away (exact arithmetic), which is the only
  idealization: the special-value behaviour of `dist / lastDist` at
  `lastDist = 0` is preserved exactly.
* `Math.hypot` comparisons in `findNearestNodeColor` are represented by the
  equivalent comparisons of squared distances (all quantities nonnegative),
  keeping that function inside exact rational arithmetic.
-/

/-! ### Settings store and backup-nudge subsystem (src/app.js lines 39-96) -/

/-- The four tracked settings keys (lines 39-44). -/
structure SettingsKeys where
  lastChangedAt : String
  lastExternalBackupAt : String
  lastNudgeDismissAt : String
  changeCount : String

def SETTINGS_KEYS : SettingsKeys :=
  ⟨"lastChangedAt", "lastExternalBackupAt", "lastNudgeDismissAt", "changeCount"⟩

/-- `dayMs()` (line 47): 24 hours in milliseconds. -/
def dayMs : ℤ := 24 * 60 * 60 * 1000

/-- `getSetting(key, fallback)` (lines 49-52): `row?.value ?? fallback`. -/
def getSetting (s : String → Option ℤ) (key : String) (fallback : ℤ) : ℤ :=
  (s key).getD fallback

/-- `setSetting(key, value)` (lines 53-55): `db.settings.put({key, value})`. -/
def setSetting (s : String → Option ℤ) (key : String) (value : ℤ) :
    String → Option ℤ :=
  fun k => if k = key then some value else s k

/-- One row of the `snapshots` table: primary key `id` and `createdAt`.
The serialized `backup` payload is not modelled (no claim reads it). -/
structure Snap where
  id : ℕ
  createdAt : ℤ
deriving DecidableEq

/-- Application state touched by the durability subsystem: the `settings`
table, the `snapshots` table with its auto-increment counter, and the
visibility of the backup-nudge banner (`UI.banner`, visible iff the
`hidden` CSS class is absent). -/
structure AppState where
  settings : String → Option ℤ
  snapshots : List Snap
  nextSnapId : ℕ
  bannerVisible : Bool

/-- The pure visibility decision of `maybeShowBackupNudge` (lines 87-91):
`changedSinceExternal && beenADay && !dismissedToday`. -/
def nudgeVisible (t lastChangedAt lastExternal lastDismiss : ℤ) : Bool :=
  let changedSinceExternal : Bool := decide (lastChangedAt > lastExternal)
  let beenADay : Bool := decide (t - lastExternal ≥ dayMs)
  let dismissedToday : Bool := decide (t - lastDismiss < dayMs)
  changedSinceExternal && beenADay && !dismissedToday

/-- `maybeShowBackupNudge()` (lines 82-96): reads the three timestamps with
fallback 0 and sets the banner's visibility to the decision. -/
def maybeShowBackupNudge (st : AppState) (t : ℤ) : AppState :=
  let lastChangedAt := getSetting st.settings SETTINGS_KEYS.lastChangedAt 0
  let lastExternal := getSetting st.settings SETTINGS_KEYS.lastExternalBackupAt 0
  let lastDismiss := getSetting st.settings SETTINGS_KEYS.lastNudgeDismissAt 0
  { st with bannerVisible := nudgeVisible t lastChangedAt lastExternal lastDismiss }

/-- Dexie index order on the `createdAt` index: by `createdAt`, ties broken
by the primary key `id`. -/
def snapLE (a b : Snap) : Bool :=
  decide (a.createdAt < b.createdAt) ||
    (decide (a.createdAt = b.createdAt) && decide (a.id ≤ b.id))

/-- Strict version of the index order, used to state sortedness. -/
def snapLT (a b : Snap) : Prop :=
  a.createdAt < b.createdAt ∨ (a.createdAt = b.createdAt ∧ a.id < b.id)

def insertSorted (x : Snap) : List Snap → List Snap
  | [] => [x]
  | y :: l => if snapLE x y then x :: y :: l else y :: insertSorted x l

/-- `db.snapshots.orderBy("createdAt").toArray()` (line 75): the stored rows
sorted in index order. -/
def sortSnaps (l : List Snap) : List Snap := l.foldr insertSorted []

/-- `createInternalSnapshot()` (lines 70-80): add a row at the current time,
then if more than 10 rows exist delete the oldest excess (by index order)
via `bulkDelete` of their ids. -/
def createInternalSnapshot (st : AppState) (t : ℤ) : AppState :=
  let st1 : AppState :=
    { st with snapshots := st.snapshots ++ [⟨st.nextSnapId, t⟩],
              nextSnapId := st.nextSnapId + 1 }
  let all := sortSnaps st1.snapshots
  if all.length > 10 then
    let toDelete := (all.take (all.length - 10)).map Snap.id
    { st1 with snapshots := st1.snapshots.filter (fun s => decide (s.id ∉ toDelete)) }
  else st1

/-- `markChanged()` (lines 57-68): set `lastChangedAt`, increment
`changeCount`, auto-snapshot every 25 changes, then re-evaluate the nudge. -/
def markChanged (st : AppState) (t : ℤ) : AppState :=
  let st1 : AppState :=
    { st with settings := setSetting st.settings SETTINGS_KEYS.lastChangedAt t }
  let count := getSetting st1.settings SETTINGS_KEYS.changeCount 0 + 1
  let st2 : AppState :=
    { st1 with settings := setSetting st1.settings SETTINGS_KEYS.changeCount count }
  let st3 := if count % 25 = 0 then createInternalSnapshot st2 t else st2
  maybeShowBackupNudge st3 t

/-- A fresh store: no settings rows, no snapshots, auto-increment at 1,
banner hidden (the `hidden` class is present in the initial markup). -/
def freshState : AppState :=
  { settings := fun _ => none, snapshots := [], nextSnapId := 1, bannerVisible := false }

/-- `n` successive calls to `markChanged` on a fresh store, the `i`-th call
at time `i` (milliseconds 1, 2, ...). -/
def iterMark : ℕ → AppState
  | 0 => freshState
  | n + 1 => markChanged (iterMark n) ((n : ℤ) + 1)

/-- `n` successive calls to `createInternalSnapshot` on a fresh store, the
`i`-th call at time `i`. -/
def iterSnap : ℕ → AppState
  | 0 => freshState
  | n + 1 => createInternalSnapshot (iterSnap n) ((n : ℤ) + 1)

/-! ### Nearest-colour lookup (src/app.js lines 397-413) -/

/-- An idea node as seen by `findNearestNodeColor`: its Konva group position
`(x, y)` (world space) and its `ideaColor` attribute. -/
structure IdeaNode where
  x : ℚ
  y : ℚ
  ideaColor : String
deriving DecidableEq

/-- `APP.nearestColorRadiusWorld` (line 311). -/
def nearestColorRadiusWorld : ℚ := 220

/-- Squared Euclidean distance from a node's anchor to a world point.  The
source compares the `Math.hypot` distance with the radius and the best
distance so far; all of these are nonnegative, so those comparisons are
equivalent to comparisons of the squares used here. -/
def dist2 (g : IdeaNode) (w : ℚ × ℚ) : ℚ :=
  (g.x - w.1) ^ 2 + (g.y - w.2) ^ 2

/-- One iteration of the scan in `findNearestNodeColor` (lines 402-410).
The accumulator is `(best, bestD)`, with `none` for `null` / the initial
`Infinity` (against which every in-radius distance compares `<`). -/
def findNearestStep (w : ℚ × ℚ) (acc : Option String × Option ℚ)
    (g : IdeaNode) : Option String × Option ℚ :=
  match acc with
  | (best, none) =>
      if dist2 g w < nearestColorRadiusWorld ^ 2 then (some g.ideaColor, some (dist2 g w))
      else (best, none)
  | (best, some bd) =>
      if dist2 g w < nearestColorRadiusWorld ^ 2 ∧ dist2 g w < bd then
        (some g.ideaColor, some (dist2 g w))
      else (best, some bd)

/-- `findNearestNodeColor(worldPoint)` (lines 397-413). -/
def findNearestNodeColor (nodes : List IdeaNode) (w : ℚ × ℚ) : Option String :=
  (nodes.foldl (findNearestStep w) (none, none)).1

/-! ### Node visuals: render mode and selection (src/app.js lines 436-531) -/

/-- The visual state of one idea-node group relevant to the claims: its
`nodeId` attribute, the visibility flags of its four children
(`bubble`, `outline`, `dot`, `label`), the outline's stroke colour, and the
group's `draggable` flag. -/
structure NodeView where
  nodeId : String
  bubbleVisible : Bool
  outlineVisible : Bool
  dotVisible : Bool
  labelVisible : Bool
  outlineStroke : String
  draggable : Bool
deriving DecidableEq

/-- `APP.readableThreshold` (line 310): 0.85. -/
def readableThreshold : ℚ := 17 / 20

/-- Stroke written to the outline of the selected node (line 526). -/
def strokeSelected : String := "rgba(255,255,255,0.9)"

/-- Transparent stroke written to every other outline (lines 461 and 526). -/
def strokeHidden : String := "rgba(255,255,255,0.0)"

/-- `selectNode(nodeId)` (lines 520-531): every group gets its outline stroke
and `draggable` flag set from whether its `nodeId` attribute equals the
selected id. -/
def selectNode (groups : List NodeView) (nodeId : String) : List NodeView :=
  groups.map fun g =>
    let selected := g.nodeId = nodeId
    { g with
      outlineStroke := if selected then strokeSelected else strokeHidden,
      draggable := selected }

/-! ### JavaScript numbers for the gesture math (exact rationals plus the
IEEE special values; see the header comment) -/

inductive JSN where
  | nan : JSN
  | inf : JSN
  | ninf : JSN
  | fin : ℚ → JSN
deriving DecidableEq

def jsAdd : JSN → JSN → JSN
  | JSN.nan, _ => JSN.nan
  | _, JSN.nan => JSN.nan
  | JSN.inf, JSN.ninf => JSN.nan
  | JSN.inf, _ => JSN.inf
  | JSN.ninf, JSN.inf => JSN.nan
  | JSN.ninf, _ => JSN.ninf
  | JSN.fin _, JSN.inf => JSN.inf
  | JSN.fin _, JSN.ninf => JSN.ninf
  | JSN.fin a, JSN.fin b => JSN.fin (a + b)

def jsSub : JSN → JSN → JSN
  | JSN.nan, _ => JSN.nan
  | _, JSN.nan => JSN.nan
  | JSN.inf, JSN.inf => JSN.nan
  | JSN.inf, _ => JSN.inf
  | JSN.ninf, JSN.ninf => JSN.nan
  | JSN.ninf, _ => JSN.ninf
  | JSN.fin _, JSN.inf => JSN.ninf
  | JSN.fin _, JSN.ninf => JSN.inf
  | JSN.fin a, JSN.fin b => JSN.fin (a - b)

def jsMul : JSN → JSN → JSN
  | JSN.nan, _ => JSN.nan
  | _, JSN.nan => JSN.nan
  | JSN.inf, JSN.inf => JSN.inf
  | JSN.inf, JSN.ninf => JSN.ninf
  | JSN.ninf, JSN.inf => JSN.ninf
  | JSN.ninf, JSN.ninf => JSN.inf
  | JSN.inf, JSN.fin q => if 0 < q then JSN.inf else if q < 0 then JSN.ninf else JSN.nan
  | JSN.fin q, JSN.inf => if 0 < q then JSN.inf else if q < 0 then JSN.ninf else JSN.nan
  | JSN.ninf, JSN.fin q => if 0 < q then JSN.ninf else if q < 0 then JSN.inf else JSN.nan
  | JSN.fin q, JSN.ninf => if 0 < q then JSN.ninf else if q < 0 then JSN.inf else JSN.nan
  | JSN.fin a, JSN.fin b => JSN.fin (a * b)

def jsDiv : JSN → JSN → JSN
  | JSN.nan, _ => JSN.nan
  | _, JSN.nan => JSN.nan
  | JSN.inf, JSN.inf => JSN.nan
  | JSN.inf, JSN.ninf => JSN.nan
  | JSN.ninf, JSN.inf => JSN.nan
  | JSN.ninf, JSN.ninf => JSN.nan
  | JSN.inf, JSN.fin q => if q < 0 then JSN.ninf else JSN.inf
  | JSN.ninf, JSN.fin q => if q < 0 then JSN.inf else JSN.ninf
  | JSN.fin _, JSN.inf => JSN.fin 0
  | JSN.fin _, JSN.ninf => JSN.fin 0
  | JSN.fin a, JSN.fin b =>
      if b = 0 then (if 0 < a then JSN.inf else if a < 0 then JSN.ninf else JSN.nan)
      else JSN.fin (a / b)

/-- `Math.min`: `NaN` absorbs, otherwise the lesser value. -/
def jsMin : JSN → JSN → JSN
  | JSN.nan, _ => JSN.nan
  | _, JSN.nan => JSN.nan
  | JSN.ninf, _ => JSN.ninf
  | _, JSN.ninf => JSN.ninf
  | JSN.inf, b => b
  | a, JSN.inf => a
  | JSN.fin a, JSN.fin b => JSN.fin (min a b)

/-- `Math.max`: `NaN` absorbs, otherwise the greater value. -/
def jsMax : JSN → JSN → JSN
  | JSN.nan, _ => JSN.nan
  | _, JSN.nan => JSN.nan
  | JSN.inf, _ => JSN.inf
  | _, JSN.inf => JSN.inf
  | JSN.ninf, b => b
  | a, JSN.ninf => a
  | JSN.fin a, JSN.fin b => JSN.fin (max a b)

/-- JS `<`: any comparison with `NaN` is false. -/
def jsLt : JSN → JSN → Bool
  | JSN.nan, _ => false
  | _, JSN.nan => false
  | JSN.inf, _ => false
  | JSN.ninf, JSN.ninf => false
  | JSN.ninf, _ => true
  | JSN.fin _, JSN.inf => true
  | JSN.fin _, JSN.ninf => false
  | JSN.fin a, JSN.fin b => decide (a < b)

/-- `updateNodeRenderForScale(group, scale)` (lines 503-518):
`isDot = scale < APP.readableThreshold`; bubble/outline/label get `!isDot`,
the dot gets `isDot`. -/
def updateNodeRenderForScale (g : NodeView) (scale : JSN) : NodeView :=
  let isDot := jsLt scale (JSN.fin readableThreshold)
  { g with
    bubbleVisible := !isDot,
    outlineVisible := !isDot,
    labelVisible := !isDot,
    dotVisible := isDot }

/-! ### Stage transform and zoom gestures (src/app.js lines 392-395, 542-643) -/

/-- A screen-space point (touch `clientX`/`clientY` or pointer position);
raw input coordinates are finite. -/
structure QPoint where
  x : ℚ
  y : ℚ
deriving DecidableEq

/-- The Konva stage transform state: position `(x, y)` and uniform scale. -/
structure StageSt where
  x : JSN
  y : JSN
  scale : JSN
deriving DecidableEq

/-- The pinch-tracking state of `wireCanvasGestures` (lines 543-544):
`lastCenter` (`null` initially and after `touchend`) and `lastDist`. -/
structure PinchSt where
  lastCenter : Option QPoint
  lastDist : ℚ
deriving DecidableEq

/-- A world-space point; divisions by the scale can produce special values. -/
structure WPoint where
  x : JSN
  y : JSN
deriving DecidableEq

/-- `screenToWorld(point)` (lines 392-395): the stage's absolute transform is
translate(position) composed with scale(scale), so its inverse maps a screen
point `p` to `(p - position) / scale`, coordinate-wise. -/
def screenToWorld (st : StageSt) (p : QPoint) : WPoint :=
  ⟨jsDiv (jsSub (JSN.fin p.x) st.x) st.scale,
   jsDiv (jsSub (JSN.fin p.y) st.y) st.scale⟩

/-- `Math.max(0.25, Math.min(3.0, newScale))` (lines 592 and 631). -/
def clampScale (s : JSN) : JSN :=
  jsMax (JSN.fin (1 / 4)) (jsMin (JSN.fin 3) s)

/-- The two-finger branch of the `touchmove` handler (lines 575-610), with
the touch midpoint `center` and the inter-contact distance `dist` (the
`Math.hypot` of the contact separation, a nonnegative number) as inputs.
If no previous sample is recorded, the sample is recorded and the stage is
untouched; otherwise the scale is multiplied by `dist / lastDist`, clamped,
and the position is recomputed so that `center` maps to the world point it
had under the old transform. -/
def pinchMove (st : StageSt) (ps : PinchSt) (center : QPoint) (dist : ℚ) :
    StageSt × PinchSt :=
  match ps.lastCenter with
  | none => (st, ⟨some center, dist⟩)
  | some _ =>
      let oldScale := st.scale
      let newScale := clampScale (jsMul oldScale (jsDiv (JSN.fin dist) (JSN.fin ps.lastDist)))
      let pointTo := screenToWorld st center
      let st2 : StageSt :=
        ⟨jsSub (JSN.fin center.x) (jsMul pointTo.x newScale),
         jsSub (JSN.fin center.y) (jsMul pointTo.y newScale),
         newScale⟩
      (st2, ⟨some center, dist⟩)

/-- The `wheel` handler (lines 620-643): no-op when the pointer position is
missing; otherwise an anchor-preserving zoom by the factor 1.05 (zoom out
when `deltaY > 0`), clamped like the pinch. -/
def wheelMove (st : StageSt) (pointer : Option QPoint) (deltaY : ℚ) : StageSt :=
  match pointer with
  | none => st
  | some p =>
      let oldScale := st.scale
      let mousePointTo := screenToWorld st p
      let dir : ℤ := if deltaY > 0 then 1 else -1
      let newScale :=
        clampScale (if dir > 0 then jsDiv oldScale (JSN.fin (21 / 20))
                    else jsMul oldScale (JSN.fin (21 / 20)))
      ⟨jsSub (JSN.fin p.x) (jsMul mousePointTo.x newScale),
       jsSub (JSN.fin p.y) (jsMul mousePointTo.y newScale),
       newScale⟩

/-- The zoom-relevant gesture events: a two-finger `touchmove` sample, a
`wheel` event (whose pointer position may be missing), and `touchend`
(which resets the pinch tracking, lines 613-617). -/
inductive GEvent where
  | pinch (center : QPoint) (dist : ℚ)
  | wheel (pointer : Option QPoint) (deltaY : ℚ)
  | touchEnd
deriving DecidableEq

def gestureStep : StageSt × PinchSt → GEvent → StageSt × PinchSt
  | (st, ps), GEvent.pinch c d => pinchMove st ps c d
  | (st, ps), GEvent.wheel p dy => (wheelMove st p dy, ps)
  | (st, _), GEvent.touchEnd => (st, ⟨none, 0⟩)

def runEvents (init : StageSt × PinchSt) (evs : List GEvent) : StageSt × PinchSt :=
  evs.foldl gestureStep init

/-- The pinch-state component of a gesture step (independent of the stage). -/
def pinchNext (ps : PinchSt) : GEvent → PinchSt
  | GEvent.pinch c d => ⟨some c, d⟩
  | GEvent.wheel _ _ => ps
  | GEvent.touchEnd => ⟨none, 0⟩

/-- An event is benign in a given pinch state when it is not a pinch update
whose previously recorded and current inter-contact distances are both zero
(the one combination whose division produces `NaN`). -/
def goodE (ps : PinchSt) : GEvent → Prop
  | GEvent.pinch _ d => ps.lastCenter = none ∨ ps.lastDist ≠ 0 ∨ d ≠ 0
  | GEvent.wheel _ _ => True
  | GEvent.touchEnd => True

/-- Every event of a trace is benign in the pinch state at which it fires. -/
def goodTrace : PinchSt → List GEvent → Prop
  | _, [] => True
  | ps, ev :: rest => goodE ps ev ∧ goodTrace (pinchNext ps ev) rest

/-- The stage scale is a finite value in the clamp range `[0.25, 3.0]`. -/
def scaleInRange (s : JSN) : Prop :=
  ∃ q : ℚ, s = JSN.fin q ∧ 1 / 4 ≤ q ∧ q ≤ 3

/-- Primary-key order on snapshot rows (ids are assigned by a counter, so
reachable stores are strictly increasing in id). -/
def snapIdLT (a b : Snap) : Prop := a.id < b.id

instance : IsTrans Snap snapIdLT :=
  ⟨fun _ _ _ h1 h2 => Nat.lt_trans h1 h2⟩

instance : IsTrans Snap snapLT :=
  ⟨fun a b c h1 h2 => by unfold snapLT at *; omega⟩

/-- The in-radius test of the nearest-colour scan: squared distance strictly
below the squared radius (`d < 220` on `Math.hypot` distances). -/
def inRadius (w : ℚ × ℚ) (g : IdeaNode) : Prop :=
  dist2 g w < nearestColorRadiusWorld ^ 2

/-- What the scan accumulator of `findNearestNodeColor` means after
processing a prefix `p` of the node list: either nothing in radius has been
seen, or `(some c, some bd)` records the colour and squared distance of the
first closest in-radius node seen so far. -/
def scanInv (w : ℚ × ℚ) (p : List IdeaNode) :
    Option String × Option ℚ → Prop
  | (none, none) => ∀ g ∈ p, ¬ inRadius w g
  | (some c, some bd) =>
      ∃ l1 g l2, p = l1 ++ g :: l2 ∧ inRadius w g ∧ dist2 g w = bd ∧
        g.ideaColor = c ∧ (∀ h ∈ p, inRadius w h → bd ≤ dist2 h w) ∧
        (∀ h ∈ l1, inRadius w h → bd < dist2 h w)
  | (none, some _) => False
  | (some _, none) => False

/-! ### Basic lemmas about the settings store and state operations -/

set_option maxRecDepth 8000

theorem getSetting_set_same (s : String → Option ℤ) (key : String) (v fb : ℤ) :
    getSetting (setSetting s key v) key fb = v := by
  simp [getSetting, setSetting]

theorem getSetting_set_other (s : String → Option ℤ) (key key2 : String) (v fb : ℤ)
    (h : key2 ≠ key) : getSetting (setSetting s key v) key2 fb = getSetting s key2 fb := by
  simp [getSetting, setSetting, h]

theorem maybeShowBackupNudge_settings (st : AppState) (t : ℤ) :
    (maybeShowBackupNudge st t).settings = st.settings := rfl

theorem maybeShowBackupNudge_snapshots (st : AppState) (t : ℤ) :
    (maybeShowBackupNudge st t).snapshots = st.snapshots := rfl

theorem maybeShowBackupNudge_nextSnapId (st : AppState) (t : ℤ) :
    (maybeShowBackupNudge st t).nextSnapId = st.nextSnapId := rfl

theorem createInternalSnapshot_settings (st : AppState) (t : ℤ) :
    (createInternalSnapshot st t).settings = st.settings := by
  simp only [createInternalSnapshot]
  split <;> rfl

theorem createInternalSnapshot_nextSnapId (st : AppState) (t : ℤ) :
    (createInternalSnapshot st t).nextSnapId = st.nextSnapId + 1 := by
  simp only [createInternalSnapshot]
  split <;> rfl

/-- Unfolding `markChanged` one level: the counter read after writing the
last-changed key equals the counter read before it (distinct keys). -/
theorem markChanged_eq (st : AppState) (t : ℤ) :
    markChanged st t =
      maybeShowBackupNudge
        (if (getSetting st.settings SETTINGS_KEYS.changeCount 0 + 1) % 25 = 0 then
           createInternalSnapshot
             (AppState.mk
               (setSetting (setSetting st.settings SETTINGS_KEYS.lastChangedAt t)
                 SETTINGS_KEYS.changeCount
                 (getSetting st.settings SETTINGS_KEYS.changeCount 0 + 1))
               st.snapshots st.nextSnapId st.bannerVisible) t
         else
           AppState.mk
             (setSetting (setSetting st.settings SETTINGS_KEYS.lastChangedAt t)
               SETTINGS_KEYS.changeCount
               (getSetting st.settings SETTINGS_KEYS.changeCount 0 + 1))
             st.snapshots st.nextSnapId st.bannerVisible) t := by
  have h : getSetting (setSetting st.settings SETTINGS_KEYS.lastChangedAt t)
      SETTINGS_KEYS.changeCount 0 = getSetting st.settings SETTINGS_KEYS.changeCount 0 :=
    getSetting_set_other _ _ _ _ _ (by decide)
  simp only [markChanged, h]

/-! ### Theorems: backup nudge (C2, C10) -/

/-- Claim C2: the nudge banner is visible if and only if the last-changed
time is strictly after the last-external-backup time, at least 24 hours have
elapsed since the last external backup, and it is not the case that fewer
than 24 hours have elapsed since the last dismissal; a dismissal within the
last 24 hours hides it regardless of the other conditions, and re-evaluating
with unchanged inputs yields the same decision (idempotence). -/
theorem claim_C2 (st : AppState) (t : ℤ) :
    ((maybeShowBackupNudge st t).bannerVisible = true ↔
      (getSetting st.settings SETTINGS_KEYS.lastExternalBackupAt 0 <
         getSetting st.settings SETTINGS_KEYS.lastChangedAt 0 ∧
       dayMs ≤ t - getSetting st.settings SETTINGS_KEYS.lastExternalBackupAt 0 ∧
       ¬ (t - getSetting st.settings SETTINGS_KEYS.lastNudgeDismissAt 0 < dayMs)))
    ∧ (t - getSetting st.settings SETTINGS_KEYS.lastNudgeDismissAt 0 < dayMs →
        (maybeShowBackupNudge st t).bannerVisible = false)
    ∧ maybeShowBackupNudge (maybeShowBackupNudge st t) t = maybeShowBackupNudge st t := by
  refine ⟨?_, ?_, rfl⟩
  · simp [maybeShowBackupNudge, nudgeVisible]
    tauto
  · intro h
    simp [maybeShowBackupNudge, nudgeVisible]
    omega

/-- Witness for C2: the spec scenario at `T` = 100 days after the epoch, with
the last external backup 25 hours before `T` and the last dismissal 48 hours
before `T`, shows the nudge. -/
theorem claim_C2_witness :
    (maybeShowBackupNudge
      (AppState.mk
        (setSetting
          (setSetting
            (setSetting (fun _ => none) SETTINGS_KEYS.lastChangedAt 8640000000)
            SETTINGS_KEYS.lastExternalBackupAt (8640000000 - 25 * 3600000))
          SETTINGS_KEYS.lastNudgeDismissAt (8640000000 - 48 * 3600000))
        [] 1 false)
      8640000000).bannerVisible = true :=
  (claim_C2 _ _).1.mpr (by decide)

/-- Claim C10: on a fresh store every timestamp reads as the fallback 0, so
the nudge is hidden before any mutation; after the first `markChanged` at any
time `t` at least a day past the epoch, the banner is visible. -/
theorem claim_C10 (t : ℤ) (h : dayMs ≤ t) :
    (maybeShowBackupNudge freshState t).bannerVisible = false ∧
    (markChanged freshState t).bannerVisible = true := by
  constructor
  · simp [maybeShowBackupNudge, nudgeVisible, freshState, getSetting]
  · have e : (markChanged freshState t).bannerVisible = nudgeVisible t t 0 0 := rfl
    rw [e]
    simp only [dayMs] at h
    simp [nudgeVisible, dayMs]
    omega

/-- Witness for C10 at `t` = exactly one day after the epoch. -/
theorem claim_C10_witness :
    (markChanged freshState 86400000).bannerVisible = true :=
  (claim_C10 86400000 (by decide)).2

/-! ### Theorems: change tracking (C3) -/

/-- Claim C3: `markChanged` stores the current time as the last-changed
timestamp, increments the persisted change counter by one, and runs the
snapshot-creation routine (observable as the snapshots table's auto-increment
counter advancing) exactly when the incremented counter is a multiple of 25;
from a fresh store, after exactly 25, 50, 75 calls exactly 1, 2, 3 snapshots
exist. -/
theorem claim_C3 :
    (∀ (st : AppState) (t : ℤ),
      getSetting (markChanged st t).settings SETTINGS_KEYS.lastChangedAt 0 = t
      ∧ getSetting (markChanged st t).settings SETTINGS_KEYS.changeCount 0
          = getSetting st.settings SETTINGS_KEYS.changeCount 0 + 1
      ∧ ((markChanged st t).nextSnapId = st.nextSnapId + 1 ↔
          (getSetting st.settings SETTINGS_KEYS.changeCount 0 + 1) % 25 = 0)
      ∧ ((getSetting st.settings SETTINGS_KEYS.changeCount 0 + 1) % 25 ≠ 0 →
          (markChanged st t).snapshots = st.snapshots))
    ∧ (iterMark 25).snapshots.length = 1
    ∧ (iterMark 50).snapshots.length = 2
    ∧ (iterMark 75).snapshots.length = 3 := by
  refine ⟨fun st t => ?_, by decide, by decide, by decide⟩
  by_cases hm : (getSetting st.settings SETTINGS_KEYS.changeCount 0 + 1) % 25 = 0
  · rw [markChanged_eq, if_pos hm]
    refine ⟨?_, ?_, ?_, fun hn => absurd hm hn⟩
    · rw [maybeShowBackupNudge_settings, createInternalSnapshot_settings]
      rw [getSetting_set_other _ _ _ _ _ (by decide), getSetting_set_same]
    · rw [maybeShowBackupNudge_settings, createInternalSnapshot_settings,
        getSetting_set_same]
    · rw [maybeShowBackupNudge_nextSnapId, createInternalSnapshot_nextSnapId]
      exact iff_of_true rfl hm
  · rw [markChanged_eq, if_neg hm]
    refine ⟨?_, ?_, ?_, fun _ => rfl⟩
    · rw [maybeShowBackupNudge_settings]
      rw [show (AppState.mk
            (setSetting (setSetting st.settings SETTINGS_KEYS.lastChangedAt t)
              SETTINGS_KEYS.changeCount
              (getSetting st.settings SETTINGS_KEYS.changeCount 0 + 1))
            st.snapshots st.nextSnapId st.bannerVisible).settings
          = setSetting (setSetting st.settings SETTINGS_KEYS.lastChangedAt t)
              SETTINGS_KEYS.changeCount
              (getSetting st.settings SETTINGS_KEYS.changeCount 0 + 1) from rfl]
      rw [getSetting_set_other _ _ _ _ _ (by decide), getSetting_set_same]
    · rw [maybeShowBackupNudge_settings]
      rw [show (AppState.mk
            (setSetting (setSetting st.settings SETTINGS_KEYS.lastChangedAt t)
              SETTINGS_KEYS.changeCount
              (getSetting st.settings SETTINGS_KEYS.changeCount 0 + 1))
            st.snapshots st.nextSnapId st.bannerVisible).settings
          = setSetting (setSetting st.settings SETTINGS_KEYS.lastChangedAt t)
              SETTINGS_KEYS.changeCount
              (getSetting st.settings SETTINGS_KEYS.changeCount 0 + 1) from rfl]
      rw [getSetting_set_same]
    · rw [maybeShowBackupNudge_nextSnapId]
      exact iff_of_false (by simp) hm

/-- Witness for C3: a first change (counter 0 → 1) creates no snapshot. -/
theorem claim_C3_witness :
    (markChanged freshState 5).snapshots = freshState.snapshots :=
  (claim_C3.1 freshState 5).2.2.2 (by decide)

/-! ### Theorems: snapshot retention (C4) -/

theorem snapLE_of_snapLT {a b : Snap} (h : snapLT a b) : snapLE a b = true := by
  unfold snapLT at h
  simp only [snapLE, Bool.or_eq_true, Bool.and_eq_true, decide_eq_true_eq]
  omega

/-- Sorting an already index-ordered list of rows is the identity. -/
theorem sortSnaps_of_chain (l : List Snap) (h : List.Chain' snapLT l) :
    sortSnaps l = l := by
  induction l with
  | nil => rfl
  | cons a l ih =>
      have e : sortSnaps (a :: l) = insertSorted a (sortSnaps l) := rfl
      rw [e, ih h.tail]
      cases l with
      | nil => rfl
      | cons b l2 =>
          have hab : snapLT a b := (List.chain'_cons.mp h).1
          simp [insertSorted, snapLE_of_snapLT hab]

theorem chain'_append_one {R : Snap → Snap → Prop} (l : List Snap) (x : Snap)
    (h : List.Chain' R l) (hlast : ∀ s ∈ l, R s x) : List.Chain' R (l ++ [x]) := by
  rw [List.chain'_append]
  refine ⟨h, List.chain'_singleton x, ?_⟩
  intro y hy z hz
  simp only [List.head?_cons, Option.mem_def, Option.some.injEq] at hz
  subst hz
  exact hlast y (List.mem_of_mem_getLast? hy)

/-- In an id-ordered list, no element of the remainder has its id among the
ids of the dropped prefix. -/
theorem pairwise_take_drop_ids (m : List Snap) (k : ℕ)
    (hp : List.Pairwise snapIdLT m) :
    ∀ a ∈ m.drop k, a.id ∉ (m.take k).map Snap.id := by
  have hp2 : List.Pairwise snapIdLT (m.take k ++ m.drop k) := by
    rwa [List.take_append_drop]
  have hcross := (List.pairwise_append.mp hp2).2.2
  intro a ha hmem
  rcases List.mem_map.mp hmem with ⟨y, hy, hye⟩
  have := hcross y hy a ha
  unfold snapIdLT at this
  omega

/-- Filtering out a prefix's ids from a list is dropping that prefix, when
the remainder's ids avoid those of the prefix. -/
theorem filter_ids_drop (l : List Snap) (k : ℕ) (ids : List ℕ)
    (h1 : ∀ a ∈ l.take k, a.id ∈ ids)
    (h2 : ∀ a ∈ l.drop k, a.id ∉ ids) :
    l.filter (fun s => decide (s.id ∉ ids)) = l.drop k := by
  have e1 : (l.take k).filter (fun s => decide (s.id ∉ ids)) = [] :=
    List.filter_eq_nil_iff.mpr (fun a ha => by simpa using h1 a ha)
  have e2 : (l.drop k).filter (fun s => decide (s.id ∉ ids)) = l.drop k :=
    List.filter_eq_self.mpr (fun a ha => by simpa using h2 a ha)
  have e : (l.take k ++ l.drop k).filter (fun s => decide (s.id ∉ ids)) = l.drop k := by
    rw [List.filter_append, e1, e2, List.nil_append]
  rwa [List.take_append_drop] at e

/-- Retention behaviour of `createInternalSnapshot` on an index-ordered store
with fresh-id discipline: the result is the appended list with its oldest
excess dropped, hence at most (exactly, once full) 10 newest rows remain. -/
theorem createInternalSnapshot_spec (st : AppState) (t : ℤ)
    (h1 : List.Chain' snapLT st.snapshots)
    (h2 : List.Chain' snapIdLT st.snapshots)
    (h3 : ∀ s ∈ st.snapshots, s.id < st.nextSnapId)
    (h4 : ∀ s ∈ st.snapshots, s.createdAt ≤ t) :
    (createInternalSnapshot st t).snapshots
      = (st.snapshots ++ [Snap.mk st.nextSnapId t]).drop (st.snapshots.length + 1 - 10)
    ∧ (createInternalSnapshot st t).snapshots.length = min (st.snapshots.length + 1) 10 := by
  have hch : List.Chain' snapLT (st.snapshots ++ [Snap.mk st.nextSnapId t]) := by
    refine chain'_append_one _ _ h1 (fun s hs => ?_)
    have := h3 s hs
    have := h4 s hs
    unfold snapLT
    simp only [Snap.mk.injEq]
    omega
  have hchid : List.Chain' snapIdLT (st.snapshots ++ [Snap.mk st.nextSnapId t]) := by
    refine chain'_append_one _ _ h2 (fun s hs => ?_)
    have := h3 s hs
    unfold snapIdLT
    simpa using this
  have hsort : sortSnaps (st.snapshots ++ [Snap.mk st.nextSnapId t])
      = st.snapshots ++ [Snap.mk st.nextSnapId t] := sortSnaps_of_chain _ hch
  have hpair : List.Pairwise snapIdLT (st.snapshots ++ [Snap.mk st.nextSnapId t]) :=
    List.chain'_iff_pairwise.mp hchid
  have hlen : (st.snapshots ++ [Snap.mk st.nextSnapId t]).length
      = st.snapshots.length + 1 := by simp
  simp only [createInternalSnapshot, hsort]
  by_cases hbig : (st.snapshots ++ [Snap.mk st.nextSnapId t]).length > 10
  · rw [if_pos hbig]
    have hdrop := filter_ids_drop (st.snapshots ++ [Snap.mk st.nextSnapId t])
      ((st.snapshots ++ [Snap.mk st.nextSnapId t]).length - 10)
      (((st.snapshots ++ [Snap.mk st.nextSnapId t]).take
          ((st.snapshots ++ [Snap.mk st.nextSnapId t]).length - 10)).map Snap.id)
      (fun a ha => List.mem_map_of_mem _ ha)
      (pairwise_take_drop_ids _ _ hpair)
    constructor
    · rw [hdrop, hlen]
    · rw [hdrop, List.length_drop, hlen]
      rw [hlen] at hbig
      omega
  · rw [if_neg hbig]
    rw [hlen] at hbig
    constructor
    · have hz : st.snapshots.length + 1 - 10 = 0 := by omega
      rw [hz, List.drop_zero]
    · rw [hlen]
      omega

/-- Claim C4: after every snapshot creation on an index-ordered store with
fresh-id discipline, at most 10 rows remain, and the retained rows are
exactly the appended store minus its oldest excess (oldest-first eviction,
keep the newest 10); concretely, after 15 creations on a fresh store exactly
10 snapshots remain and their creation times are the 10 most recent. -/
theorem claim_C4 :
    (∀ (st : AppState) (t : ℤ),
      List.Chain' snapLT st.snapshots →
      List.Chain' snapIdLT st.snapshots →
      (∀ s ∈ st.snapshots, s.id < st.nextSnapId) →
      (∀ s ∈ st.snapshots, s.createdAt ≤ t) →
      (createInternalSnapshot st t).snapshots
          = (st.snapshots ++ [Snap.mk st.nextSnapId t]).drop (st.snapshots.length + 1 - 10)
        ∧ (createInternalSnapshot st t).snapshots.length = min (st.snapshots.length + 1) 10
        ∧ (createInternalSnapshot st t).snapshots.length ≤ 10)
    ∧ (iterSnap 15).snapshots.length = 10
    ∧ (iterSnap 15).snapshots.map Snap.createdAt = [6, 7, 8, 9, 10, 11, 12, 13, 14, 15] := by
  refine ⟨fun st t h1 h2 h3 h4 => ?_, by decide, by decide⟩
  obtain ⟨e1, e2⟩ := createInternalSnapshot_spec st t h1 h2 h3 h4
  exact ⟨e1, e2, by omega⟩

/-- Witness for C4 on an empty, trivially ordered store. -/
theorem claim_C4_witness :
    (createInternalSnapshot freshState 7).snapshots.length ≤ 10 :=
  (claim_C4.1 freshState 7 (by simp [freshState]) (by simp [freshState])
    (by simp [freshState]) (by simp [freshState])).2.2

/-! ### Theorems: nearest-colour lookup (C8) -/

theorem dist2_nonneg (g : IdeaNode) (w : ℚ × ℚ) : 0 ≤ dist2 g w := by
  unfold dist2
  positivity

/-- One scan step preserves the accumulator invariant. -/
theorem scanInv_step (w : ℚ × ℚ) (p : List IdeaNode)
    (acc : Option String × Option ℚ) (g : IdeaNode) (h : scanInv w p acc) :
    scanInv w (p ++ [g]) (findNearestStep w acc g) := by
  rcases acc with ⟨best, bd⟩
  rcases bd with _ | bd
  · rcases best with _ | c
    · have hp : ∀ g2 ∈ p, ¬ inRadius w g2 := h
      by_cases hr : dist2 g w < nearestColorRadiusWorld ^ 2
      · simp only [findNearestStep, if_pos hr]
        refine ⟨p, g, [], rfl, hr, rfl, rfl, ?_, ?_⟩
        · intro h2 hh hrh
          rcases List.mem_append.mp hh with hh | hh
          · exact absurd hrh (hp h2 hh)
          · simp only [List.mem_singleton] at hh
            subst hh
            exact le_refl _
        · intro h2 hh hrh
          exact absurd hrh (hp h2 hh)
      · simp only [findNearestStep, if_neg hr]
        intro h2 hh
        rcases List.mem_append.mp hh with hh | hh
        · exact hp h2 hh
        · simp only [List.mem_singleton] at hh
          subst hh
          exact hr
    · exact h.elim
  · rcases best with _ | c
    · exact h.elim
    · obtain ⟨l1, g0, l2, hsplit, hg0r, hg0d, hg0c, hmin, hstrict⟩ := h
      by_cases hr : dist2 g w < nearestColorRadiusWorld ^ 2 ∧ dist2 g w < bd
      · simp only [findNearestStep, if_pos hr]
        refine ⟨p, g, [], rfl, hr.1, rfl, rfl, ?_, ?_⟩
        · intro h2 hh hrh
          rcases List.mem_append.mp hh with hh | hh
          · exact le_of_lt (lt_of_lt_of_le hr.2 (hmin h2 hh hrh))
          · simp only [List.mem_singleton] at hh
            subst hh
            exact le_refl _
        · intro h2 hh hrh
          exact lt_of_lt_of_le hr.2 (hmin h2 hh hrh)
      · simp only [findNearestStep, if_neg hr]
        refine ⟨l1, g0, l2 ++ [g], by rw [hsplit]; simp, hg0r, hg0d, hg0c, ?_, hstrict⟩
        intro h2 hh hrh
        rcases List.mem_append.mp hh with hh | hh
        · exact hmin h2 hh hrh
        · simp only [List.mem_singleton] at hh
          subst hh
          rcases not_and_or.mp hr with hr1 | hr2
          · exact absurd hrh hr1
          · exact le_of_not_lt hr2

/-- The scan invariant holds after folding over any suffix. -/
theorem scanInv_foldl (w : ℚ × ℚ) :
    ∀ (rest p : List IdeaNode) (acc : Option String × Option ℚ),
      scanInv w p acc →
      scanInv w (p ++ rest) (rest.foldl (findNearestStep w) acc)
  | [], p, acc, h => by simpa using h
  | g :: rest, p, acc, h => by
      have h2 := scanInv_foldl w rest (p ++ [g]) (findNearestStep w acc g)
        (scanInv_step w p acc g h)
      simpa [List.append_assoc] using h2

/-- Claim C8: `findNearestNodeColor` returns `none` exactly when no node's
world-space distance to the query point is below 220; otherwise it returns
the colour of the first node attaining the minimal in-radius distance
(earlier equally-distant nodes would have been kept, so scan order breaks
ties); a node at the query point itself (distance 0) is a result. -/
theorem claim_C8 (nodes : List IdeaNode) (w : ℚ × ℚ) :
    (findNearestNodeColor nodes w = none ↔ ∀ g ∈ nodes, ¬ inRadius w g)
    ∧ (∀ c, findNearestNodeColor nodes w = some c →
        ∃ l1 g l2, nodes = l1 ++ g :: l2 ∧ inRadius w g ∧ g.ideaColor = c ∧
          (∀ h2 ∈ nodes, inRadius w h2 → dist2 g w ≤ dist2 h2 w) ∧
          (∀ h2 ∈ l1, inRadius w h2 → dist2 g w < dist2 h2 w))
    ∧ ((∃ g ∈ nodes, dist2 g w = 0) →
        ∃ g ∈ nodes, dist2 g w = 0 ∧ findNearestNodeColor nodes w = some g.ideaColor) := by
  have hInv0 : scanInv w [] ((none, none) : Option String × Option ℚ) :=
    fun g hg => absurd hg (List.not_mem_nil g)
  have hInv := scanInv_foldl w nodes [] (none, none) hInv0
  rw [List.nil_append] at hInv
  have hfst : findNearestNodeColor nodes w
      = (nodes.foldl (findNearestStep w) (none, none)).1 := rfl
  rcases hacc : nodes.foldl (findNearestStep w) (none, none) with ⟨best, bd⟩
  rw [hacc] at hInv
  rcases bd with _ | bd
  · rcases best with _ | c
    · have hp : ∀ g ∈ nodes, ¬ inRadius w g := hInv
      refine ⟨iff_of_true (by rw [hfst, hacc]) hp, ?_, ?_⟩
      · intro c hc
        rw [hfst, hacc] at hc
        exact Option.noConfusion hc
      · rintro ⟨g, hg, hd⟩
        have : inRadius w g := by
          unfold inRadius
          rw [hd]
          norm_num [nearestColorRadiusWorld]
        exact absurd this (hp g hg)
    · exact hInv.elim
  · rcases best with _ | c
    · exact hInv.elim
    · obtain ⟨l1, g0, l2, hsplit, hg0r, hg0d, hg0c, hmin, hstrict⟩ := hInv
      have hg0mem : g0 ∈ nodes := by
        rw [hsplit]
        simp
      refine ⟨?_, ?_, ?_⟩
      · refine iff_of_false (by rw [hfst, hacc]; simp) ?_
        intro hall
        exact absurd hg0r (hall g0 hg0mem)
      · intro c2 hc2
        rw [hfst, hacc] at hc2
        have hcc : c = c2 := Option.some.inj hc2
        subst hcc
        refine ⟨l1, g0, l2, hsplit, hg0r, hg0c, ?_, ?_⟩
        · intro h2 hh hrh
          have := hmin h2 hh hrh
          rw [hg0d]
          exact this
        · intro h2 hh hrh
          have := hstrict h2 hh hrh
          rw [hg0d]
          exact this
      · rintro ⟨g, hg, hd⟩
        have hgr : inRadius w g := by
          unfold inRadius
          rw [hd]
          norm_num [nearestColorRadiusWorld]
        have h1 : bd ≤ 0 := by
          have := hmin g hg hgr
          rw [hd] at this
          exact this
        have h2 : dist2 g0 w = 0 := le_antisymm (hg0d ▸ h1) (dist2_nonneg g0 w)
        refine ⟨g0, hg0mem, h2, ?_⟩
        rw [hfst, hacc, hg0c]

/-! ### Theorems: node render mode (C6) and selection (C9) -/

/-- Claim C6: for every scale value `s`, the node is rendered in dot mode
(only the circle visible, bubble/outline/label hidden) exactly when
`s < 0.85`, and in readable mode (bubble/outline/label visible, circle
hidden) otherwise; the resulting visibilities depend only on `s`, not on the
group's previous visibility state. -/
theorem claim_C6 (g h : NodeView) (s : ℚ) :
    (((updateNodeRenderForScale g (JSN.fin s)).dotVisible = true
      ∧ (updateNodeRenderForScale g (JSN.fin s)).bubbleVisible = false
      ∧ (updateNodeRenderForScale g (JSN.fin s)).outlineVisible = false
      ∧ (updateNodeRenderForScale g (JSN.fin s)).labelVisible = false)
     ↔ s < readableThreshold)
    ∧ (((updateNodeRenderForScale g (JSN.fin s)).dotVisible = false
      ∧ (updateNodeRenderForScale g (JSN.fin s)).bubbleVisible = true
      ∧ (updateNodeRenderForScale g (JSN.fin s)).outlineVisible = true
      ∧ (updateNodeRenderForScale g (JSN.fin s)).labelVisible = true)
     ↔ ¬ s < readableThreshold)
    ∧ ((updateNodeRenderForScale g (JSN.fin s)).dotVisible
        = (updateNodeRenderForScale h (JSN.fin s)).dotVisible
      ∧ (updateNodeRenderForScale g (JSN.fin s)).bubbleVisible
        = (updateNodeRenderForScale h (JSN.fin s)).bubbleVisible
      ∧ (updateNodeRenderForScale g (JSN.fin s)).outlineVisible
        = (updateNodeRenderForScale h (JSN.fin s)).outlineVisible
      ∧ (updateNodeRenderForScale g (JSN.fin s)).labelVisible
        = (updateNodeRenderForScale h (JSN.fin s)).labelVisible) := by
  by_cases hs : s < readableThreshold <;>
    simp [updateNodeRenderForScale, jsLt, hs]

/-- Claim C9: after `selectNode groups b`, a group is draggable and shows
the selected outline stroke exactly when its id is `b`; every other group
gets the transparent stroke and `draggable = false`; with distinct ids, no
two groups are ever simultaneously draggable. -/
theorem claim_C9 (groups : List NodeView) (nodeId : String) :
    (∀ g ∈ selectNode groups nodeId,
       (g.draggable = true ↔ g.nodeId = nodeId)
       ∧ (g.outlineStroke = strokeSelected ↔ g.nodeId = nodeId)
       ∧ (g.nodeId ≠ nodeId → g.outlineStroke = strokeHidden ∧ g.draggable = false))
    ∧ (List.Pairwise (fun a b : NodeView => a.nodeId ≠ b.nodeId) groups →
       List.Pairwise (fun a b : NodeView => ¬ (a.draggable = true ∧ b.draggable = true))
         (selectNode groups nodeId)) := by
  have hne : strokeSelected ≠ strokeHidden := by decide
  constructor
  · intro g hg
    rcases List.mem_map.mp hg with ⟨g0, hg0, rfl⟩
    by_cases hsel : g0.nodeId = nodeId
    · simp [hsel, strokeSelected, strokeHidden]
    · simp [hsel, strokeSelected, strokeHidden]
  · intro hp
    unfold selectNode
    rw [List.pairwise_map]
    refine hp.imp ?_
    intro a b hab
    by_cases ha : a.nodeId = nodeId
    · by_cases hb : b.nodeId = nodeId
      · exact absurd (ha.trans hb.symm) hab
      · simp [hb]
    · simp [ha]

/-- Witness for C9: selecting "b" among two distinct groups leaves at most
one group draggable. -/
theorem claim_C9_witness :
    List.Pairwise (fun a b : NodeView => ¬ (a.draggable = true ∧ b.draggable = true))
      (selectNode
        [NodeView.mk "a" true true false true strokeHidden false,
         NodeView.mk "b" true true false true strokeHidden false] "b") :=
  (claim_C9 _ "b").2 (by simp)

/-! ### Lemmas about the JS arithmetic on special values -/

theorem jsSub_fin (a b : ℚ) : jsSub (JSN.fin a) (JSN.fin b) = JSN.fin (a - b) := rfl

theorem jsMul_fin_fin (a b : ℚ) : jsMul (JSN.fin a) (JSN.fin b) = JSN.fin (a * b) := rfl

theorem jsMul_fin_inf {s : ℚ} (h : 0 < s) : jsMul (JSN.fin s) JSN.inf = JSN.inf := by
  simp [jsMul, h]

theorem jsMul_fin_ninf {s : ℚ} (h : 0 < s) : jsMul (JSN.fin s) JSN.ninf = JSN.ninf := by
  simp [jsMul, h]

theorem jsDiv_fin_fin {b : ℚ} (h : b ≠ 0) (a : ℚ) :
    jsDiv (JSN.fin a) (JSN.fin b) = JSN.fin (a / b) := by
  simp [jsDiv, h]

theorem jsDiv_fin_zero_pos {d : ℚ} (h : 0 < d) :
    jsDiv (JSN.fin d) (JSN.fin 0) = JSN.inf := by
  simp [jsDiv, h]

theorem jsDiv_fin_zero_neg {d : ℚ} (h : d < 0) :
    jsDiv (JSN.fin d) (JSN.fin 0) = JSN.ninf := by
  simp [jsDiv, h, h.not_lt]

theorem jsDiv_zero_zero : jsDiv (JSN.fin 0) (JSN.fin 0) = JSN.nan := by
  simp [jsDiv]

theorem clampScale_fin (q : ℚ) :
    clampScale (JSN.fin q) = JSN.fin (max (1 / 4) (min 3 q)) := rfl

theorem clampScale_inf : clampScale JSN.inf = JSN.fin 3 := by
  have h : max (1 / 4 : ℚ) 3 = 3 := by norm_num
  simp [clampScale, jsMin, jsMax, h]
  norm_num

theorem clampScale_ninf : clampScale JSN.ninf = JSN.fin (1 / 4) := rfl

theorem clampScale_nan : clampScale JSN.nan = JSN.nan := rfl

/-- The clamped pinch scale: for a positive finite old scale, unless both
the current and previously recorded distances are zero, the new scale is a
finite value in `[0.25, 3.0]`. -/
theorem pinch_newScale (s d ld : ℚ) (hspos : 0 < s) (hgood : ld ≠ 0 ∨ d ≠ 0) :
    ∃ ns : ℚ, 1 / 4 ≤ ns ∧ ns ≤ 3 ∧
      clampScale (jsMul (JSN.fin s) (jsDiv (JSN.fin d) (JSN.fin ld))) = JSN.fin ns := by
  by_cases hld : ld = 0
  · subst hld
    have hd : d ≠ 0 := hgood.resolve_left (fun hh => hh rfl)
    rcases lt_or_gt_of_ne hd with hneg | hpos
    · refine ⟨1 / 4, le_refl _, by norm_num, ?_⟩
      rw [jsDiv_fin_zero_neg hneg, jsMul_fin_ninf hspos, clampScale_ninf]
    · refine ⟨3, by norm_num, le_refl _, ?_⟩
      rw [jsDiv_fin_zero_pos hpos, jsMul_fin_inf hspos, clampScale_inf]
  · refine ⟨max (1 / 4) (min 3 (s * (d / ld))), le_max_left _ _,
      max_le (by norm_num) (min_le_left _ _), ?_⟩
    rw [jsDiv_fin_fin hld, jsMul_fin_fin, clampScale_fin]

/-- The zoom reposition leaves the anchor's world coordinate unchanged. -/
theorem anchor_cancel (w ns p : ℚ) (hns : ns ≠ 0) : (p - (p - w * ns)) / ns = w := by
  rw [show p - (p - w * ns) = w * ns from by ring]
  exact mul_div_cancel_right₀ w hns

/-- The clamped wheel scale is always a finite value in `[0.25, 3.0]` when
the old scale is finite. -/
theorem wheel_newScale (s dy : ℚ) :
    ∃ ns : ℚ, 1 / 4 ≤ ns ∧ ns ≤ 3 ∧
      clampScale (if (if dy > 0 then (1 : ℤ) else -1) > 0
          then jsDiv (JSN.fin s) (JSN.fin (21 / 20))
          else jsMul (JSN.fin s) (JSN.fin (21 / 20))) = JSN.fin ns := by
  by_cases hdy : dy > 0
  · refine ⟨max (1 / 4) (min 3 (s / (21 / 20))), le_max_left _ _,
      max_le (by norm_num) (min_le_left _ _), ?_⟩
    rw [if_pos hdy, if_pos (by norm_num : (1 : ℤ) > 0),
      jsDiv_fin_fin (by norm_num : (21 / 20 : ℚ) ≠ 0), clampScale_fin]
  · refine ⟨max (1 / 4) (min 3 (s * (21 / 20))), le_max_left _ _,
      max_le (by norm_num) (min_le_left _ _), ?_⟩
    rw [if_neg hdy, if_neg (by norm_num : ¬ ((-1 : ℤ) > 0)), jsMul_fin_fin, clampScale_fin]

/-- Anchor preservation for the common reposition shape of pinch and wheel:
with a finite stage, a nonzero old scale and a finite nonzero new scale,
the focal screen point maps to the same world point afterwards. -/
theorem zoom_anchor (st : StageSt) (q : QPoint) (a b s ns : ℚ)
    (hx : st.x = JSN.fin a) (hy : st.y = JSN.fin b) (hs : st.scale = JSN.fin s)
    (hsne : s ≠ 0) (hnsne : ns ≠ 0) :
    screenToWorld
      ⟨jsSub (JSN.fin q.x) (jsMul (screenToWorld st q).x (JSN.fin ns)),
       jsSub (JSN.fin q.y) (jsMul (screenToWorld st q).y (JSN.fin ns)),
       JSN.fin ns⟩ q
    = screenToWorld st q := by
  have hw : screenToWorld st q = ⟨JSN.fin ((q.x - a) / s), JSN.fin ((q.y - b) / s)⟩ := by
    unfold screenToWorld
    rw [hx, hy, hs]
    simp only [jsSub_fin, jsDiv_fin_fin hsne]
  rw [hw]
  unfold screenToWorld
  simp only [jsMul_fin_fin, jsSub_fin, jsDiv_fin_fin hnsne]
  rw [anchor_cancel ((q.x - a) / s) ns q.x hnsne, anchor_cancel ((q.y - b) / s) ns q.y hnsne]

/-! ### Theorems: pinch zero-distance behaviour (C1) -/

/-- Claim C1 (amended): a pinch update applies no zoom only when no previous
pinch sample is recorded (the very first two-finger move, which just records
the sample).  When a previous sample IS recorded with inter-contact distance
zero, an update is applied: with a positive current distance the division
yields infinity and the clamped scale becomes 3.0, and with a zero current
distance the new scale is NaN. -/
theorem claim_C1 (st : StageSt) (ps : PinchSt) (c : QPoint) (d s : ℚ) :
    (ps.lastCenter = none → pinchMove st ps c d = (st, ⟨some c, d⟩))
    ∧ (st.scale = JSN.fin s → 0 < s → ps.lastCenter ≠ none → ps.lastDist = 0 → 0 < d →
        (pinchMove st ps c d).1.scale = JSN.fin 3)
    ∧ (st.scale = JSN.fin s → 0 < s → ps.lastCenter ≠ none → ps.lastDist = 0 → d = 0 →
        (pinchMove st ps c d).1.scale = JSN.nan) := by
  refine ⟨?_, ?_, ?_⟩
  · intro h
    simp [pinchMove, h]
  · intro hs hspos hcen hld hd
    rcases hc2 : ps.lastCenter with _ | c0
    · exact absurd hc2 hcen
    · have e : (pinchMove st ps c d).1.scale
          = clampScale (jsMul st.scale (jsDiv (JSN.fin d) (JSN.fin ps.lastDist))) := by
        simp [pinchMove, hc2]
      rw [e, hld, hs, jsDiv_fin_zero_pos hd, jsMul_fin_inf hspos, clampScale_inf]
  · intro hs hspos hcen hld hd
    rcases hc2 : ps.lastCenter with _ | c0
    · exact absurd hc2 hcen
    · have e : (pinchMove st ps c d).1.scale
          = clampScale (jsMul st.scale (jsDiv (JSN.fin d) (JSN.fin ps.lastDist))) := by
        simp [pinchMove, hc2]
      rw [e, hld, hd, hs, jsDiv_zero_zero]
      rw [show jsMul (JSN.fin s) JSN.nan = JSN.nan from rfl, clampScale_nan]

/-- Counterexample to C1 as stated: after a first two-finger sample with both
touches at the same point (recording distance 0), the next pinch update with
positive distance changes the stage scale (from 1 to the clamp bound 3). -/
theorem claim_C1_counterexample :
    (runEvents (⟨JSN.fin 0, JSN.fin 0, JSN.fin 1⟩, ⟨none, 0⟩)
        [GEvent.pinch ⟨0, 0⟩ 0, GEvent.pinch ⟨10, 10⟩ 20]).1.scale
      ≠ (⟨JSN.fin 0, JSN.fin 0, JSN.fin 1⟩ : StageSt).scale := by
  have e : (runEvents (⟨JSN.fin 0, JSN.fin 0, JSN.fin 1⟩, ⟨none, 0⟩)
      [GEvent.pinch ⟨0, 0⟩ 0, GEvent.pinch ⟨10, 10⟩ 20]).1.scale
      = clampScale (jsMul (JSN.fin 1) (jsDiv (JSN.fin 20) (JSN.fin 0))) := rfl
  rw [e, jsDiv_fin_zero_pos (by norm_num), jsMul_fin_inf (by norm_num), clampScale_inf]
  intro hcontra
  have h31 : (3 : ℚ) = 1 := JSN.fin.inj hcontra
  norm_num at h31

/-- Witness for C1 (amended): with recorded distance 0 and current distance
20, the scale jumps to the clamp bound 3. -/
theorem claim_C1_witness :
    (pinchMove (⟨JSN.fin 0, JSN.fin 0, JSN.fin 1⟩ : StageSt)
        (⟨some ⟨0, 0⟩, 0⟩ : PinchSt) ⟨10, 10⟩ 20).1.scale = JSN.fin 3 :=
  (claim_C1 _ _ _ 20 1).2.1 rfl (by norm_num) (by simp) rfl (by norm_num)

/-! ### Theorems: scale clamp invariant (C5) -/

/-- A single benign gesture step keeps the scale finite in `[0.25, 3.0]`. -/
theorem gestureStep_scale (st : StageSt) (ps : PinchSt) (ev : GEvent)
    (h : scaleInRange st.scale) (hg : goodE ps ev) :
    scaleInRange ((gestureStep (st, ps) ev).1.scale) := by
  obtain ⟨s, hs, hs1, hs2⟩ := h
  have hspos : 0 < s := lt_of_lt_of_le (by norm_num) hs1
  cases ev with
  | touchEnd => exact ⟨s, hs, hs1, hs2⟩
  | wheel p dy =>
      cases p with
      | none => exact ⟨s, hs, hs1, hs2⟩
      | some p0 =>
          show scaleInRange (wheelMove st (some p0) dy).scale
          obtain ⟨ns, h1, h2, h3⟩ := wheel_newScale s dy
          have e : (wheelMove st (some p0) dy).scale
              = clampScale (if (if dy > 0 then (1 : ℤ) else -1) > 0
                  then jsDiv st.scale (JSN.fin (21 / 20))
                  else jsMul st.scale (JSN.fin (21 / 20))) := rfl
          rw [e, hs, h3]
          exact ⟨ns, rfl, h1, h2⟩
  | pinch c d =>
      show scaleInRange (pinchMove st ps c d).1.scale
      rcases hc : ps.lastCenter with _ | c0
      · have e : (pinchMove st ps c d).1 = st := by simp [pinchMove, hc]
        rw [e]
        exact ⟨s, hs, hs1, hs2⟩
      · have hgood : ps.lastDist ≠ 0 ∨ d ≠ 0 := by
          rcases hg with hh | hh | hh
          · rw [hc] at hh
            exact absurd hh (by simp)
          · exact Or.inl hh
          · exact Or.inr hh
        obtain ⟨ns, h1, h2, h3⟩ := pinch_newScale s d ps.lastDist hspos hgood
        have e : (pinchMove st ps c d).1.scale
            = clampScale (jsMul st.scale (jsDiv (JSN.fin d) (JSN.fin ps.lastDist))) := by
          simp [pinchMove, hc]
        rw [e, hs, h3]
        exact ⟨ns, rfl, h1, h2⟩

/-- The pinch-state component of a step does not depend on the stage. -/
theorem gestureStep_snd (st : StageSt) (ps : PinchSt) (ev : GEvent) :
    (gestureStep (st, ps) ev).2 = pinchNext ps ev := by
  cases ev with
  | pinch c d => cases hc : ps.lastCenter <;> simp [gestureStep, pinchMove, pinchNext, hc]
  | wheel p dy => rfl
  | touchEnd => rfl

/-- Scale-range preservation along every prefix of a benign trace. -/
theorem runEvents_scale (evs : List GEvent) :
    ∀ (st : StageSt) (ps : PinchSt),
      scaleInRange st.scale → goodTrace ps evs →
      ∀ n : ℕ, scaleInRange ((runEvents (st, ps) (evs.take n)).1.scale) := by
  induction evs with
  | nil =>
      intro st ps h _ n
      simpa [runEvents] using h
  | cons ev evs ih =>
      intro st ps h hg n
      cases n with
      | zero => simpa [runEvents] using h
      | succ n =>
          have hstep := gestureStep_scale st ps ev h hg.1
          have hrun : runEvents (st, ps) ((ev :: evs).take (n + 1))
              = runEvents (gestureStep (st, ps) ev) (evs.take n) := by
            simp [runEvents]
          rw [hrun]
          have hih := ih (gestureStep (st, ps) ev).1 (pinchNext ps ev) hstep hg.2 n
          have hpair : ((gestureStep (st, ps) ev).1, pinchNext ps ev)
              = gestureStep (st, ps) ev := by
            rw [← gestureStep_snd st ps ev]
          rwa [hpair] at hih

/-- Claim C5 (amended): starting from a finite scale in `[0.25, 3.0]`, the
scale stays finite in `[0.25, 3.0]` after every step of any sequence of
pinch/wheel zoom steps, provided no applied pinch update has both its
previously recorded and its current inter-contact distance equal to zero
(such a double-zero update instead makes the scale NaN). -/
theorem claim_C5 (evs : List GEvent) (st : StageSt) (ps : PinchSt) (n : ℕ)
    (h : scaleInRange st.scale) (hg : goodTrace ps evs) :
    scaleInRange ((runEvents (st, ps) (evs.take n)).1.scale) :=
  runEvents_scale evs st ps h hg n

/-- Witness for C5: one wheel step from scale 1 stays in range. -/
theorem claim_C5_witness :
    scaleInRange ((runEvents (⟨JSN.fin 0, JSN.fin 0, JSN.fin 1⟩, ⟨none, 0⟩)
      ([GEvent.wheel (some ⟨0, 0⟩) 1].take 1)).1.scale) :=
  claim_C5 [GEvent.wheel (some ⟨0, 0⟩) 1] ⟨JSN.fin 0, JSN.fin 0, JSN.fin 1⟩ ⟨none, 0⟩ 1
    ⟨1, rfl, by norm_num, by norm_num⟩ ⟨trivial, trivial⟩

/-- Counterexample to C5 as stated: two pinch samples with both touches at
the same point (distance 0 twice) drive the scale from 1 to NaN, outside
`[0.25, 3.0]`. -/
theorem claim_C5_counterexample :
    scaleInRange ((⟨JSN.fin 0, JSN.fin 0, JSN.fin 1⟩ : StageSt).scale)
    ∧ ¬ scaleInRange ((runEvents (⟨JSN.fin 0, JSN.fin 0, JSN.fin 1⟩, ⟨none, 0⟩)
        [GEvent.pinch ⟨0, 0⟩ 0, GEvent.pinch ⟨0, 0⟩ 0]).1.scale) := by
  constructor
  · exact ⟨1, rfl, by norm_num, by norm_num⟩
  · rw [show (runEvents (⟨JSN.fin 0, JSN.fin 0, JSN.fin 1⟩, ⟨none, 0⟩)
        [GEvent.pinch ⟨0, 0⟩ 0, GEvent.pinch ⟨0, 0⟩ 0]).1.scale = JSN.nan from rfl]
    rintro ⟨q, hq, -, -⟩
    exact JSN.noConfusion hq

/-! ### Theorems: anchor invariance of zoom steps (C7) -/

/-- Claim C7 (amended): for every applied pinch update that is not the
double-zero-distance case, and for every wheel event with a pointer
position, the world point under the focal screen point is exactly the same
before and after the step (the clamped cases included); the excluded
double-zero pinch instead makes the transform NaN. -/
theorem claim_C7 (st : StageSt) (ps : PinchSt) (c p : QPoint) (d dy a b s : ℚ)
    (hx : st.x = JSN.fin a) (hy : st.y = JSN.fin b) (hs : st.scale = JSN.fin s)
    (hs1 : 1 / 4 ≤ s) (hs2 : s ≤ 3) :
    (ps.lastCenter ≠ none → ps.lastDist ≠ 0 ∨ d ≠ 0 →
        screenToWorld (pinchMove st ps c d).1 c = screenToWorld st c)
    ∧ screenToWorld (wheelMove st (some p) dy) p = screenToWorld st p := by
  have hspos : 0 < s := lt_of_lt_of_le (by norm_num) hs1
  have hsne : s ≠ 0 := ne_of_gt hspos
  constructor
  · intro hcen hgood
    rcases hc : ps.lastCenter with _ | c0
    · exact absurd hc hcen
    · obtain ⟨ns, h1, h2, h3⟩ := pinch_newScale s d ps.lastDist hspos hgood
      have hnsne : ns ≠ 0 := ne_of_gt (lt_of_lt_of_le (by norm_num) h1)
      have e : (pinchMove st ps c d).1
          = ⟨jsSub (JSN.fin c.x) (jsMul (screenToWorld st c).x
                (clampScale (jsMul st.scale (jsDiv (JSN.fin d) (JSN.fin ps.lastDist))))),
             jsSub (JSN.fin c.y) (jsMul (screenToWorld st c).y
                (clampScale (jsMul st.scale (jsDiv (JSN.fin d) (JSN.fin ps.lastDist))))),
             clampScale (jsMul st.scale (jsDiv (JSN.fin d) (JSN.fin ps.lastDist)))⟩ := by
        simp [pinchMove, hc]
      rw [e, hs, h3]
      exact zoom_anchor st c a b s ns hx hy hs hsne hnsne
  · obtain ⟨ns, h1, h2, h3⟩ := wheel_newScale s dy
    have hnsne : ns ≠ 0 := ne_of_gt (lt_of_lt_of_le (by norm_num) h1)
    have e : wheelMove st (some p) dy
        = ⟨jsSub (JSN.fin p.x) (jsMul (screenToWorld st p).x
              (clampScale (if (if dy > 0 then (1 : ℤ) else -1) > 0
                then jsDiv st.scale (JSN.fin (21 / 20))
                else jsMul st.scale (JSN.fin (21 / 20))))),
           jsSub (JSN.fin p.y) (jsMul (screenToWorld st p).y
              (clampScale (if (if dy > 0 then (1 : ℤ) else -1) > 0
                then jsDiv st.scale (JSN.fin (21 / 20))
                else jsMul st.scale (JSN.fin (21 / 20))))),
           clampScale (if (if dy > 0 then (1 : ℤ) else -1) > 0
                then jsDiv st.scale (JSN.fin (21 / 20))
                else jsMul st.scale (JSN.fin (21 / 20)))⟩ := rfl
    rw [e, hs, h3]
    exact zoom_anchor st p a b s ns hx hy hs hsne hnsne

/-- Witness for C7: a wheel zoom-out step at pointer (5, 7) from the
identity transform preserves the pointer's world point. -/
theorem claim_C7_witness :
    screenToWorld (wheelMove (⟨JSN.fin 0, JSN.fin 0, JSN.fin 1⟩ : StageSt)
        (some ⟨5, 7⟩) 1) ⟨5, 7⟩
      = screenToWorld (⟨JSN.fin 0, JSN.fin 0, JSN.fin 1⟩ : StageSt) ⟨5, 7⟩ :=
  (claim_C7 ⟨JSN.fin 0, JSN.fin 0, JSN.fin 1⟩ ⟨none, 0⟩ ⟨0, 0⟩ ⟨5, 7⟩ 0 1 0 0 1
    rfl rfl rfl (by norm_num) (by norm_num)).2

/-- Counterexample to C7 as stated: the double-zero pinch update (recorded
distance 0, current distance 0) sends the focal point's world coordinate
from 0 to NaN. -/
theorem claim_C7_counterexample :
    screenToWorld
        (pinchMove (⟨JSN.fin 0, JSN.fin 0, JSN.fin 1⟩ : StageSt)
          (⟨some ⟨0, 0⟩, 0⟩ : PinchSt) ⟨0, 0⟩ 0).1 ⟨0, 0⟩
      ≠ screenToWorld (⟨JSN.fin 0, JSN.fin 0, JSN.fin 1⟩ : StageSt) ⟨0, 0⟩ := by
  decide
